import Mathlib

/-!
Verification of the in-memory student store of `mi-app-alumnos/backend/main.py`.

The Python store is three module-level variables: `students_db` (a list of
dicts), `next_id` and `last_reset`.  Python lists hold *references* to dict
objects, and `INITIAL_STUDENTS.copy()` is a shallow copy, so the embedding
models object identity explicitly: a `heap` of all dict objects ever
allocated (positions are object identities) together with `dbRefs`, the list
of references making up `students_db`.  The seed list `INITIAL_STUDENTS`
permanently references heap positions 0, 1 and 2; in-place field mutation
(`student["campo"] = value` in `update_student`, `activate_student`,
`deactivate_student`) writes through the reference and is therefore visible
from every list holding that reference, including `INITIAL_STUDENTS`.

`datetime` values are modelled as `Nat` timestamps measured in minutes, so
`timedelta(minutes=30)` is the constant 30.
-/

namespace ApiAlumnos

/-- One student dict, as stored in `students_db` (the fields of the seed
dicts in `INITIAL_STUDENTS` and of the `Student` response model).
`telefono` is `Optional[str]` in the source; `fecha_registro` is a
timestamp. -/
structure Student where
  id : Nat
  nombre : String
  apellido : String
  email : String
  telefono : Option String
  curso : String
  nivel : String
  activo : Bool
  fecha_registro : Nat
deriving Repr, DecidableEq

/-- Request body of `POST /alumnos` (`StudentCreate`, inheriting
`StudentBase`): all profile fields, `activo` defaulting to true on the
Pydantic side. -/
structure StudentCreate where
  nombre : String
  apellido : String
  email : String
  telefono : Option String
  curso : String
  nivel : String
  activo : Bool
deriving Repr, DecidableEq

/-- Request body of `PUT /alumnos/{id}` (`StudentUpdate`): every field
optional; `model_dump(exclude_unset=True)` keeps only the fields the client
actually supplied, modelled by the outer `Option` (`none` = not supplied).
The model has no `id` and no `fecha_registro` field, so those can never be
supplied.  An explicitly supplied JSON `null` for a field whose stored type
is not nullable is not modelled. -/
structure StudentUpdate where
  nombre : Option String
  apellido : Option String
  email : Option String
  telefono : Option (Option String)
  curso : Option String
  nivel : Option String
  activo : Option Bool
deriving Repr, DecidableEq

/-- The `Statistics` response model: `por_curso` / `por_nivel` are the
insertion-ordered (label, count) dicts rendered as association lists. -/
structure Statistics where
  total_alumnos : Nat
  alumnos_activos : Nat
  alumnos_inactivos : Nat
  por_curso : List (String × Nat)
  por_nivel : List (String × Nat)
deriving Repr, DecidableEq

/-- The module-level mutable state of `main.py`: the heap of allocated
dict objects, `students_db` as a list of heap references, `next_id`, and
`last_reset`. -/
structure Store where
  heap : List Student
  dbRefs : List Nat
  nextId : Nat
  lastReset : Nat
deriving Repr, DecidableEq

/-- The contents of `students_db` as the list of dicts it references, in
order. -/
def Store.view (s : Store) : List Student :=
  s.dbRefs.filterMap (fun r => s.heap[r]?)

/-- Error taxonomy surfaced by the endpoints: 401, 404 and 400
(duplicate email). -/
inductive Err where
  | unauthorized
  | notFound
  | conflict
deriving Repr, DecidableEq

/-- `API_KEY = os.getenv("API_KEY", "demo-key-2024")`, modelled at its
default value. -/
def API_KEY : String := "demo-key-2024"

/-- `timedelta(minutes=30)`, in minutes. -/
def RESET_WINDOW : Nat := 30

/-- First seed dict of `INITIAL_STUDENTS` (id 1, Juan). Its
`fecha_registro` is `datetime.now()` at module load, modelled as time 0. -/
def seedJuan : Student :=
  { id := 1, nombre := "Juan", apellido := "Pérez", email := "juan@email.com",
    telefono := some "123456789", curso := "Python para Principiantes",
    nivel := "Principiante", activo := true, fecha_registro := 0 }

/-- Second seed dict of `INITIAL_STUDENTS` (id 2, María). -/
def seedMaria : Student :=
  { id := 2, nombre := "María", apellido := "García", email := "maria@email.com",
    telefono := some "987654321", curso := "JavaScript Avanzado",
    nivel := "Intermedio", activo := true, fecha_registro := 0 }

/-- Third seed dict of `INITIAL_STUDENTS` (id 3, Carlos, inactive). -/
def seedCarlos : Student :=
  { id := 3, nombre := "Carlos", apellido := "López", email := "carlos@email.com",
    telefono := some "555666777", curso := "Data Science",
    nivel := "Avanzado", activo := false, fecha_registro := 0 }

/-- `INITIAL_STUDENTS` as a list of heap references: the three seed dicts
live at heap positions 0, 1 and 2 for the whole process lifetime.  A reset
(`INITIAL_STUDENTS.copy()`) copies this reference list, not the dicts. -/
def seedRefs : List Nat := [0, 1, 2]

/-- The store at process start: heap holds exactly the three seed dicts,
`students_db = INITIAL_STUDENTS.copy()`, `next_id = 4`,
`last_reset = datetime.now()` (time 0). -/
def initStore : Store :=
  { heap := [seedJuan, seedMaria, seedCarlos], dbRefs := seedRefs,
    nextId := 4, lastReset := 0 }

/-- `reset_data_if_needed`: if `datetime.now() - last_reset >
timedelta(minutes=30)` then `students_db = INITIAL_STUDENTS.copy()`
(a shallow copy: `dbRefs := seedRefs`, the heap dicts at positions 0-2 are
reused as they currently are), `next_id = 4`, `last_reset = datetime.now()`. -/
def reset_data_if_needed (now : Nat) (s : Store) : Store :=
  if s.lastReset + RESET_WINDOW < now then
    { s with dbRefs := seedRefs, nextId := 4, lastReset := now }
  else s

/-- `get_api_key`: 401 when no credential is presented, 401 when the
presented credential differs from `API_KEY`, otherwise returns it. -/
def get_api_key (cred : Option String) : Except Err String :=
  match cred with
  | none => .error .unauthorized
  | some c => if c = API_KEY then .ok c else .error .unauthorized

/-- Scan of a reference list for the first dict with the given id. -/
def findInRefs (heap : List Student) (i : Nat) (refs : List Nat) : Option (Nat × Student) :=
  refs.findSome? fun r =>
    (heap[r]?).bind fun st => if st.id = i then some (r, st) else none

/-- `next((s for s in students_db if s["id"] == student_id), None)`:
the first dict in `students_db` with the given id, together with its heap
reference (so that in-place mutation of it can be expressed). -/
def findRecord (s : Store) (student_id : Nat) : Option (Nat × Student) :=
  findInRefs s.heap student_id s.dbRefs

/-- In-place mutation of the dict object at heap reference `r`
(`student["campo"] = value` writes through the reference). -/
def setHeap (s : Store) (r : Nat) (st : Student) : Store :=
  { s with heap := s.heap.set r st }

/-- The dict built by `create_student`:
`{"id": next_id, **student.model_dump(), "fecha_registro": datetime.now()}`. -/
def newStudentOf (nid : Nat) (now : Nat) (req : StudentCreate) : Student :=
  { id := nid, nombre := req.nombre, apellido := req.apellido,
    email := req.email, telefono := req.telefono, curso := req.curso,
    nivel := req.nivel, activo := req.activo, fecha_registro := now }

/-- Body of `create_student` after the reset pre-check: duplicate-email
check over `students_db` (exact, case-sensitive), then the new dict is
appended (a freshly allocated object) and `next_id` incremented. -/
def create_student_core (now : Nat) (req : StudentCreate) (s : Store) :
    Except Err Student × Store :=
  if s.view.any (fun st => st.email == req.email) then
    (.error .conflict, s)
  else
    (.ok (newStudentOf s.nextId now req),
      { s with heap := s.heap ++ [newStudentOf s.nextId now req],
               dbRefs := s.dbRefs ++ [s.heap.length],
               nextId := s.nextId + 1 })

/-- The field-update loop of `update_student`: for each field present in
`model_dump(exclude_unset=True)`, `student[field] = value`.  Every
`StudentUpdate` field name is a key of the student dict, so the
`if field in student` guard always passes; `id` and `fecha_registro` are
not `StudentUpdate` fields and are untouched. -/
def applyUpdate (st : Student) (u : StudentUpdate) : Student :=
  { st with
      nombre := u.nombre.getD st.nombre,
      apellido := u.apellido.getD st.apellido,
      email := u.email.getD st.email,
      telefono := u.telefono.getD st.telefono,
      curso := u.curso.getD st.curso,
      nivel := u.nivel.getD st.nivel,
      activo := u.activo.getD st.activo }

/-- Body of `update_student` after the reset pre-check: find the first dict
with the given id (404 when absent), mutate it in place with the supplied
fields, return it. -/
def update_student_core (student_id : Nat) (u : StudentUpdate) (s : Store) :
    Except Err Student × Store :=
  match findRecord s student_id with
  | none => (.error .notFound, s)
  | some (r, st) =>
    let st' := applyUpdate st u
    (.ok st', setHeap s r st')

/-- Body of `delete_student` after the reset pre-check: 404 when absent,
otherwise `students_db = [s for s in students_db if s["id"] != student_id]`
(rebinds the list; no dict is mutated). -/
def delete_student_core (student_id : Nat) (s : Store) :
    Except Err Unit × Store :=
  match findRecord s student_id with
  | none => (.error .notFound, s)
  | some _ =>
    (.ok (),
      { s with dbRefs :=
          s.dbRefs.filter fun r => !((s.heap[r]?).any fun st => st.id == student_id) })

/-- Shared body of `activate_student` / `deactivate_student` after the reset
pre-check: find the first dict with the given id (404 when absent) and set
`student["activo"] = b` in place. -/
def set_active_core (b : Bool) (student_id : Nat) (s : Store) :
    Except Err Unit × Store :=
  match findRecord s student_id with
  | none => (.error .notFound, s)
  | some (r, st) => (.ok (), setHeap s r { st with activo := b })

/-- Python's `str.lower()`, character by character (`Char.toLower` covers
the ASCII range, which is all the filter comparisons in this service use). -/
def strLower (s : String) : String := ⟨s.data.map Char.toLower⟩

/-- The filter chain of `get_students`: start from a copy of `students_db`,
then filter by `activo` when the parameter is not `None`, then by `curso`
and `nivel` under Python truthiness (`if curso:` skips both `None` and the
empty string), comparing `.lower()` forms. -/
def filter_students (activo : Option Bool) (curso nivel : Option String)
    (students : List Student) : List Student :=
  let l1 := match activo with
    | none => students
    | some b => students.filter fun st => st.activo == b
  let l2 := match curso with
    | none => l1
    | some c => if c.isEmpty then l1 else l1.filter fun st => strLower st.curso == strLower c
  match nivel with
  | none => l2
  | some n => if n.isEmpty then l2 else l2.filter fun st => strLower st.nivel == strLower n

/-- Body of `get_student` after the reset pre-check. -/
def get_student_core (student_id : Nat) (s : Store) : Except Err Student :=
  match findRecord s student_id with
  | none => .error .notFound
  | some (_, st) => .ok st

/-- One step of the dict-counting loops of `get_statistics`
(`d[key] = d.get(key, 0) + 1`): increment the key in place, or append it
with count 1; Python dicts preserve insertion order. -/
def bumpCount (l : List (String × Nat)) (k : String) : List (String × Nat) :=
  match l with
  | [] => [(k, 1)]
  | (k', n) :: rest => if k' = k then (k', n + 1) :: rest else (k', n) :: bumpCount rest k

/-- The full counting loop over the current records. -/
def countsBy (f : Student → String) (students : List Student) : List (String × Nat) :=
  students.foldl (fun acc st => bumpCount acc (f st)) []

/-- Body of `get_statistics` after the reset pre-check: pure computation
over `students_db`; `alumnos_inactivos = total - activos`. -/
def get_statistics_core (s : Store) : Statistics :=
  let total := s.view.length
  let act := (s.view.filter fun st => st.activo).length
  { total_alumnos := total, alumnos_activos := act,
    alumnos_inactivos := total - act,
    por_curso := countsBy (fun st => st.curso) s.view,
    por_nivel := countsBy (fun st => st.nivel) s.view }

/-! ### Full endpoint handlers

FastAPI resolves the `Depends(get_api_key)` dependency *before* the
endpoint function body runs, so for the protected endpoints the credential
check happens first and `reset_data_if_needed()` — the first line of each
body — runs only when the credential was accepted.  The read-only endpoints
have no dependency and run `reset_data_if_needed()` first. -/

/-- `POST /alumnos`. -/
def create_student (cred : Option String) (now : Nat) (req : StudentCreate)
    (s : Store) : Except Err Student × Store :=
  match get_api_key cred with
  | .error e => (.error e, s)
  | .ok _ => create_student_core now req (reset_data_if_needed now s)

/-- `PUT /alumnos/{id}`. -/
def update_student (cred : Option String) (now : Nat) (student_id : Nat)
    (u : StudentUpdate) (s : Store) : Except Err Student × Store :=
  match get_api_key cred with
  | .error e => (.error e, s)
  | .ok _ => update_student_core student_id u (reset_data_if_needed now s)

/-- `DELETE /alumnos/{id}`. -/
def delete_student (cred : Option String) (now : Nat) (student_id : Nat)
    (s : Store) : Except Err Unit × Store :=
  match get_api_key cred with
  | .error e => (.error e, s)
  | .ok _ => delete_student_core student_id (reset_data_if_needed now s)

/-- `PATCH /alumnos/{id}/activar`. -/
def activate_student (cred : Option String) (now : Nat) (student_id : Nat)
    (s : Store) : Except Err Unit × Store :=
  match get_api_key cred with
  | .error e => (.error e, s)
  | .ok _ => set_active_core true student_id (reset_data_if_needed now s)

/-- `PATCH /alumnos/{id}/desactivar`. -/
def deactivate_student (cred : Option String) (now : Nat) (student_id : Nat)
    (s : Store) : Except Err Unit × Store :=
  match get_api_key cred with
  | .error e => (.error e, s)
  | .ok _ => set_active_core false student_id (reset_data_if_needed now s)

/-- `POST /reset-demo`: protected; resets unconditionally (it does not call
`reset_data_if_needed`); same shallow copy of `INITIAL_STUDENTS`. -/
def reset_demo_data (cred : Option String) (now : Nat) (s : Store) :
    Except Err Unit × Store :=
  match get_api_key cred with
  | .error e => (.error e, s)
  | .ok _ => (.ok (), { s with dbRefs := seedRefs, nextId := 4, lastReset := now })

/-- `GET /alumnos`: reset pre-check, then the filter chain; never fails. -/
def get_students (now : Nat) (activo : Option Bool) (curso nivel : Option String)
    (s : Store) : List Student × Store :=
  let s' := reset_data_if_needed now s
  (filter_students activo curso nivel s'.view, s')

/-- `GET /alumnos/{id}`. -/
def get_student (now : Nat) (student_id : Nat) (s : Store) :
    Except Err Student × Store :=
  let s' := reset_data_if_needed now s
  (get_student_core student_id s', s')

/-- `GET /estadisticas`. -/
def get_statistics (now : Nat) (s : Store) : Statistics × Store :=
  let s' := reset_data_if_needed now s
  (get_statistics_core s', s')

/-- `GET /health`: reset pre-check, then reports `len(students_db)`. -/
def health_check (now : Nat) (s : Store) : Nat × Store :=
  let s' := reset_data_if_needed now s
  (s'.dbRefs.length, s')

/-- One inbound request (without its timestamp). -/
inductive Op where
  | create (cred : Option String) (req : StudentCreate)
  | update (cred : Option String) (student_id : Nat) (u : StudentUpdate)
  | delete (cred : Option String) (student_id : Nat)
  | activate (cred : Option String) (student_id : Nat)
  | deactivate (cred : Option String) (student_id : Nat)
  | listStudents (activo : Option Bool) (curso nivel : Option String)
  | getOne (student_id : Nat)
  | stats
  | health
  | resetDemo (cred : Option String)
deriving Repr, DecidableEq

/-- The store after handling one request at time `now`. -/
def runOp (now : Nat) (op : Op) (s : Store) : Store :=
  match op with
  | .create cred req => (create_student cred now req s).2
  | .update cred i u => (update_student cred now i u s).2
  | .delete cred i => (delete_student cred now i s).2
  | .activate cred i => (activate_student cred now i s).2
  | .deactivate cred i => (deactivate_student cred now i s).2
  | .listStudents a c n => (get_students now a c n s).2
  | .getOne i => (get_student now i s).2
  | .stats => (get_statistics now s).2
  | .health => (health_check now s).2
  | .resetDemo cred => (reset_demo_data cred now s).2

/-- The store after a sequence of timestamped requests. -/
def runTrace (s : Store) : List (Nat × Op) → Store
  | [] => s
  | (now, op) :: rest => runTrace (runOp now op s) rest

/-- `l` with its first element of id `i` replaced by `st'` (abstract
description of an in-place dict mutation as seen through `students_db`). -/
def replaceFirstById (l : List Student) (i : Nat) (st' : Student) : List Student :=
  match l with
  | [] => []
  | x :: rest => if x.id = i then st' :: rest else x :: replaceFirstById rest i st'

/-! ### Helper lemmas about the heap/reference representation -/

theorem findInRefs_spec (heap : List Student) (i : Nat) :
    ∀ (refs : List Nat) (r : Nat) (st : Student),
      findInRefs heap i refs = some (r, st) →
      r ∈ refs ∧ heap[r]? = some st ∧ st.id = i := by
  intro refs
  induction refs with
  | nil => intro r st h; simp [findInRefs] at h
  | cons q rest ih =>
    intro r st h
    rw [findInRefs, List.findSome?_cons] at h
    cases hq : (heap[q]?).bind fun x => if x.id = i then some (q, x) else none with
    | some p =>
      rw [hq] at h
      cases h
      rcases Option.bind_eq_some.mp hq with ⟨x, hx, hif⟩
      by_cases hxi : x.id = i
      · rw [if_pos hxi] at hif
        cases hif
        exact ⟨List.mem_cons_self _ _, hx, hxi⟩
      · rw [if_neg hxi] at hif
        cases hif
    | none =>
      rw [hq] at h
      rcases ih r st h with ⟨hmem, hget, hid⟩
      exact ⟨List.mem_cons_of_mem _ hmem, hget, hid⟩

theorem findRecord_spec (s : Store) (i r : Nat) (st : Student)
    (h : findRecord s i = some (r, st)) :
    r ∈ s.dbRefs ∧ s.heap[r]? = some st ∧ st.id = i :=
  findInRefs_spec s.heap i s.dbRefs r st h

theorem getElem?_set_map_id (heap : List Student) (r : Nat) (st st' : Student)
    (hr : heap[r]? = some st) (hid : st'.id = st.id) (q : Nat) :
    ((heap.set r st')[q]?).map Student.id = (heap[q]?).map Student.id := by
  rcases eq_or_ne r q with rfl | hne
  · have hlt : r < heap.length := by
      by_contra hge
      rw [List.getElem?_eq_none (Nat.le_of_not_lt hge)] at hr
      cases hr
    rw [List.getElem?_set_self hlt, hr]
    simp [hid]
  · rw [List.getElem?_set_ne hne]

theorem filterMap_getElem?_set_found (heap : List Student) (i : Nat) :
    ∀ (refs : List Nat) (r : Nat) (st st' : Student),
      (∀ q ∈ refs, q < heap.length) → refs.Nodup →
      findInRefs heap i refs = some (r, st) →
      refs.filterMap (fun q => (heap.set r st')[q]?) =
        replaceFirstById (refs.filterMap (fun q => heap[q]?)) i st' := by
  intro refs
  induction refs with
  | nil => intro r st st' _ _ h; simp [findInRefs] at h
  | cons q rest ih =>
    intro r st st' hwf hnd h
    have hqlen : q < heap.length := hwf q (List.mem_cons_self _ _)
    rcases List.getElem?_eq_getElem hqlen with hq
    rw [findInRefs, List.findSome?_cons, hq] at h
    by_cases hqi : (heap[q]).id = i
    · rw [Option.some_bind, if_pos hqi] at h
      cases h
      rw [List.filterMap_cons, List.filterMap_cons, hq,
        List.getElem?_set_self hqlen]
      have hrest : rest.filterMap (fun q' => (heap.set q st')[q']?) =
          rest.filterMap (fun q' => heap[q']?) := by
        apply List.filterMap_congr
        intro q' hq'
        have : q ≠ q' := fun hqq => (List.nodup_cons.mp hnd).1 (hqq ▸ hq')
        rw [List.getElem?_set_ne this]
      rw [hrest, replaceFirstById, if_pos hqi]
    · rw [Option.some_bind, if_neg hqi] at h
      have hrest := findInRefs_spec heap i rest r st h
      have hqr : r ≠ q := fun hrq =>
        (List.nodup_cons.mp hnd).1 (hrq ▸ hrest.1)
      rw [List.filterMap_cons, List.filterMap_cons, hq,
        List.getElem?_set_ne (fun hrq => hqr hrq), hq,
        ih r st st' (fun q' hq' => hwf q' (List.mem_cons_of_mem _ hq'))
          (List.nodup_cons.mp hnd).2 h,
        replaceFirstById, if_neg hqi]

theorem view_setHeap (s : Store) (i r : Nat) (st st' : Student)
    (hwf : ∀ q ∈ s.dbRefs, q < s.heap.length) (hnd : s.dbRefs.Nodup)
    (hfind : findRecord s i = some (r, st)) :
    (setHeap s r st').view = replaceFirstById s.view i st' :=
  filterMap_getElem?_set_found s.heap i s.dbRefs r st st' hwf hnd hfind

theorem filterMap_getElem?_append (heap : List Student) (x : Student)
    (refs : List Nat) (hwf : ∀ q ∈ refs, q < heap.length) :
    refs.filterMap (fun q => (heap ++ [x])[q]?) =
      refs.filterMap (fun q => heap[q]?) := by
  apply List.filterMap_congr
  intro q hq
  rw [List.getElem?_append, if_pos (hwf q hq)]

/-! ### Statistics helpers -/

/-- Total of the counts of a counting dict. -/
def sumCounts (l : List (String × Nat)) : Nat := (l.map Prod.snd).sum

/-- Keys of a counting dict, in insertion order. -/
def keysOf (l : List (String × Nat)) : List String := l.map Prod.fst

/-- First-seen-order deduplication: the key order the spec ascribes to
`by_course` / `by_level`. -/
def firstSeen (l : List String) : List String :=
  l.foldl (fun acc k => if k ∈ acc then acc else acc ++ [k]) []

theorem sumCounts_bumpCount (l : List (String × Nat)) (k : String) :
    sumCounts (bumpCount l k) = sumCounts l + 1 := by
  induction l with
  | nil => rfl
  | cons p rest ih =>
    obtain ⟨k', n⟩ := p
    by_cases h : k' = k
    · simp only [bumpCount, if_pos h, sumCounts, List.map_cons, List.sum_cons]
      omega
    · simp only [bumpCount, if_neg h, sumCounts, List.map_cons, List.sum_cons] at ih ⊢
      omega

theorem keysOf_bumpCount (l : List (String × Nat)) (k : String) :
    keysOf (bumpCount l k) =
      if k ∈ keysOf l then keysOf l else keysOf l ++ [k] := by
  induction l with
  | nil => simp [bumpCount, keysOf]
  | cons p rest ih =>
    obtain ⟨k', n⟩ := p
    by_cases h : k' = k
    · subst h
      simp [bumpCount, keysOf]
    · have hne : k ≠ k' := fun hkk => h hkk.symm
      simp only [bumpCount, if_neg h, keysOf, List.map_cons] at ih ⊢
      rw [ih]
      by_cases hk : k ∈ List.map Prod.fst rest
      · rw [if_pos hk, if_pos (List.mem_cons_of_mem _ hk)]
      · rw [if_neg hk, if_neg (by simp [List.mem_cons, hne, hk]), List.cons_append]

theorem sumCounts_foldl_bump (f : Student → String) :
    ∀ (l : List Student) (acc : List (String × Nat)),
      sumCounts (l.foldl (fun a st => bumpCount a (f st)) acc) =
        sumCounts acc + l.length := by
  intro l
  induction l with
  | nil => intro acc; simp
  | cons st rest ih =>
    intro acc
    rw [List.foldl_cons, ih, sumCounts_bumpCount, List.length_cons]
    omega

theorem sumCounts_countsBy (f : Student → String) (l : List Student) :
    sumCounts (countsBy f l) = l.length := by
  rw [countsBy, sumCounts_foldl_bump]
  simp [sumCounts]

theorem keysOf_foldl_bump (f : Student → String) :
    ∀ (l : List Student) (acc : List (String × Nat)),
      keysOf (l.foldl (fun a st => bumpCount a (f st)) acc) =
        (l.map f).foldl (fun a k => if k ∈ a then a else a ++ [k]) (keysOf acc) := by
  intro l
  induction l with
  | nil => intro acc; rfl
  | cons st rest ih =>
    intro acc
    rw [List.map_cons, List.foldl_cons, List.foldl_cons, ih, keysOf_bumpCount]

theorem keysOf_countsBy (f : Student → String) (l : List Student) :
    keysOf (countsBy f l) = firstSeen (l.map f) := by
  rw [countsBy, keysOf_foldl_bump, firstSeen]
  rfl

theorem nodup_foldl_insertNew :
    ∀ (l : List String) (acc : List String), acc.Nodup →
      (l.foldl (fun a k => if k ∈ a then a else a ++ [k]) acc).Nodup := by
  intro l
  induction l with
  | nil => intro acc h; exact h
  | cons k rest ih =>
    intro acc h
    rw [List.foldl_cons]
    by_cases hk : k ∈ acc
    · rw [if_pos hk]; exact ih acc h
    · rw [if_neg hk]
      refine ih _ ?_
      rw [List.nodup_append]
      refine ⟨h, List.nodup_singleton k, ?_⟩
      intro a ha hb
      rw [List.mem_singleton] at hb
      exact hk (hb ▸ ha)

theorem nodup_firstSeen (l : List String) : (firstSeen l).Nodup :=
  nodup_foldl_insertNew l [] List.nodup_nil

/-! ### The store invariant -/

/-- Well-formedness of the module state, preserved by every endpoint:
references are valid and distinct, the three seed dicts sit at heap
positions 0-2 with their ids 1-3 intact (updates never touch `id`), every
stored id is below `next_id`, which never drops below 4, and stored ids are
pairwise distinct. -/
structure StoreInv (s : Store) : Prop where
  refsValid : ∀ r ∈ s.dbRefs, r < s.heap.length
  refsNodup : s.dbRefs.Nodup
  heapLen : 3 ≤ s.heap.length
  seedId : ∀ i ∈ seedRefs, (s.heap[i]?).map Student.id = some (i + 1)
  nextIdGe : 4 ≤ s.nextId
  idsLt : ∀ st ∈ s.view, st.id < s.nextId
  idsNodup : (s.view.map Student.id).Nodup

theorem storeInv_initStore : StoreInv initStore := by
  constructor <;> decide

theorem storeInv_resetTo (s : Store) (t : Nat) (h : StoreInv s) :
    StoreInv { s with dbRefs := seedRefs, nextId := 4, lastReset := t } := by
  obtain ⟨st0, h0, hid0⟩ : ∃ st, s.heap[0]? = some st ∧ st.id = 1 := by
    rcases Option.map_eq_some'.mp (h.seedId 0 (by decide)) with ⟨st, hst, hid⟩
    exact ⟨st, hst, hid⟩
  obtain ⟨st1, h1, hid1⟩ : ∃ st, s.heap[1]? = some st ∧ st.id = 2 := by
    rcases Option.map_eq_some'.mp (h.seedId 1 (by decide)) with ⟨st, hst, hid⟩
    exact ⟨st, hst, hid⟩
  obtain ⟨st2, h2, hid2⟩ : ∃ st, s.heap[2]? = some st ∧ st.id = 3 := by
    rcases Option.map_eq_some'.mp (h.seedId 2 (by decide)) with ⟨st, hst, hid⟩
    exact ⟨st, hst, hid⟩
  have hview : ({ s with dbRefs := seedRefs, nextId := 4, lastReset := t } : Store).view
      = [st0, st1, st2] := by
    simp [Store.view, seedRefs, List.filterMap_cons, h0, h1, h2]
  refine ⟨?_, ?_, ?_, ?_, ?_, ?_, ?_⟩
  · intro r hr
    dsimp only at hr ⊢
    have h3 := h.heapLen
    simp only [seedRefs, List.mem_cons, List.not_mem_nil, or_false] at hr
    rcases hr with rfl | rfl | rfl <;> omega
  · dsimp only
    decide
  · dsimp only
    exact h.heapLen
  · dsimp only
    exact h.seedId
  · dsimp only
    exact Nat.le_refl 4
  · intro st hst
    rw [hview] at hst
    dsimp only
    simp only [List.mem_cons, List.not_mem_nil, or_false] at hst
    rcases hst with rfl | rfl | rfl <;> omega
  · rw [hview]
    simp only [List.map_cons, List.map_nil, hid0, hid1, hid2]
    decide

theorem storeInv_reset (now : Nat) (s : Store) (h : StoreInv s) :
    StoreInv (reset_data_if_needed now s) := by
  rw [reset_data_if_needed]
  split
  · exact storeInv_resetTo s now h
  · exact h

theorem storeInv_setHeap (s : Store) (r : Nat) (st st' : Student)
    (hr : s.heap[r]? = some st) (hid : st'.id = st.id) (h : StoreInv s) :
    StoreInv (setHeap s r st') := by
  have hids : ∀ q, ((s.heap.set r st')[q]?).map Student.id
      = (s.heap[q]?).map Student.id :=
    getElem?_set_map_id s.heap r st st' hr hid
  have hview : (setHeap s r st').view.map Student.id = s.view.map Student.id := by
    rw [Store.view, Store.view, List.map_filterMap, List.map_filterMap]
    exact List.filterMap_congr (fun q _ => hids q)
  constructor
  · intro q hq
    rw [setHeap]
    simp only [List.length_set]
    exact h.refsValid q hq
  · exact h.refsNodup
  · rw [setHeap]
    simp only [List.length_set]
    exact h.heapLen
  · intro i hi
    rw [setHeap]
    simp only
    rw [hids i]
    exact h.seedId i hi
  · exact h.nextIdGe
  · intro st1 hst1
    have hmem : st1.id ∈ (setHeap s r st').view.map Student.id :=
      List.mem_map_of_mem _ hst1
    rw [hview] at hmem
    rcases List.mem_map.mp hmem with ⟨st2, hst2, hide⟩
    have hlt := h.idsLt st2 hst2
    have hnext : (setHeap s r st').nextId = s.nextId := rfl
    omega
  · rw [show (setHeap s r st').view.map Student.id = s.view.map Student.id
      from hview]
    exact h.idsNodup

theorem storeInv_create (now : Nat) (req : StudentCreate) (s : Store)
    (h : StoreInv s) : StoreInv (create_student_core now req s).2 := by
  rw [create_student_core]
  split
  · exact h
  · dsimp only
    have hview : ({ s with
        heap := s.heap ++ [newStudentOf s.nextId now req],
        dbRefs := s.dbRefs ++ [s.heap.length],
        nextId := s.nextId + 1 } : Store).view
        = s.view ++ [newStudentOf s.nextId now req] := by
      rw [Store.view]
      dsimp only
      rw [List.filterMap_append,
        filterMap_getElem?_append s.heap _ s.dbRefs h.refsValid]
      rw [Store.view]
      congr 1
      simp [List.filterMap_cons, List.getElem?_concat_length]
    refine ⟨?_, ?_, ?_, ?_, ?_, ?_, ?_⟩
    · intro r hr
      dsimp only at hr ⊢
      simp only [List.length_append, List.length_cons, List.length_nil]
      rcases List.mem_append.mp hr with hr | hr
      · have := h.refsValid r hr
        omega
      · rw [List.mem_singleton] at hr
        omega
    · dsimp only
      rw [List.nodup_append]
      refine ⟨h.refsNodup, List.nodup_singleton _, ?_⟩
      intro a ha hb
      rw [List.mem_singleton] at hb
      have := h.refsValid a ha
      omega
    · dsimp only
      simp only [List.length_append, List.length_cons, List.length_nil]
      have := h.heapLen
      omega
    · intro i hi
      dsimp only
      have hlt : i < s.heap.length := by
        have h3 := h.heapLen
        simp only [seedRefs, List.mem_cons, List.not_mem_nil, or_false] at hi
        rcases hi with rfl | rfl | rfl <;> omega
      rw [List.getElem?_append, if_pos hlt]
      exact h.seedId i hi
    · dsimp only
      have := h.nextIdGe
      omega
    · intro st hst
      rw [hview] at hst
      dsimp only
      rcases List.mem_append.mp hst with hst | hst
      · have := h.idsLt st hst
        omega
      · rw [List.mem_singleton] at hst
        subst hst
        have hid : (newStudentOf s.nextId now req).id = s.nextId := rfl
        omega
    · rw [hview, List.map_append, List.nodup_append]
      refine ⟨h.idsNodup, by simp, ?_⟩
      intro a ha hb
      have hid : (newStudentOf s.nextId now req).id = s.nextId := rfl
      simp only [List.map_cons, List.map_nil, List.mem_singleton] at hb
      rcases List.mem_map.mp ha with ⟨st2, hst2, hide⟩
      have := h.idsLt st2 hst2
      omega

theorem storeInv_update (i : Nat) (u : StudentUpdate) (s : Store)
    (h : StoreInv s) : StoreInv (update_student_core i u s).2 := by
  rw [update_student_core]
  cases hf : findRecord s i with
  | none => exact h
  | some p =>
    obtain ⟨r, st⟩ := p
    dsimp only
    exact storeInv_setHeap s r st _ (findRecord_spec s i r st hf).2.1 rfl h

theorem storeInv_setActive (b : Bool) (i : Nat) (s : Store)
    (h : StoreInv s) : StoreInv (set_active_core b i s).2 := by
  rw [set_active_core]
  cases hf : findRecord s i with
  | none => exact h
  | some p =>
    obtain ⟨r, st⟩ := p
    dsimp only
    exact storeInv_setHeap s r st _ (findRecord_spec s i r st hf).2.1 rfl h

theorem storeInv_delete (i : Nat) (s : Store) (h : StoreInv s) :
    StoreInv (delete_student_core i s).2 := by
  rw [delete_student_core]
  cases hf : findRecord s i with
  | none => exact h
  | some p =>
    dsimp only
    have hsub : ({ s with dbRefs := s.dbRefs.filter fun r =>
        !((s.heap[r]?).any fun st => st.id == i) } : Store).view.Sublist s.view :=
      List.Sublist.filterMap _ (List.filter_sublist s.dbRefs)
    constructor
    · intro r hr
      exact h.refsValid r (List.mem_of_mem_filter hr)
    · exact h.refsNodup.filter _
    · exact h.heapLen
    · exact h.seedId
    · exact h.nextIdGe
    · intro st hst
      exact h.idsLt st (hsub.subset hst)
    · exact (hsub.map Student.id).nodup h.idsNodup

theorem storeInv_runOp (now : Nat) (op : Op) (s : Store) (h : StoreInv s) :
    StoreInv (runOp now op s) := by
  have hres := storeInv_reset now s h
  cases op with
  | create cred req =>
    rw [runOp, create_student]
    cases get_api_key cred with
    | error e => exact h
    | ok k => exact storeInv_create now req _ hres
  | update cred i u =>
    rw [runOp, update_student]
    cases get_api_key cred with
    | error e => exact h
    | ok k => exact storeInv_update i u _ hres
  | delete cred i =>
    rw [runOp, delete_student]
    cases get_api_key cred with
    | error e => exact h
    | ok k => exact storeInv_delete i _ hres
  | activate cred i =>
    rw [runOp, activate_student]
    cases get_api_key cred with
    | error e => exact h
    | ok k => exact storeInv_setActive true i _ hres
  | deactivate cred i =>
    rw [runOp, deactivate_student]
    cases get_api_key cred with
    | error e => exact h
    | ok k => exact storeInv_setActive false i _ hres
  | listStudents a c n => exact hres
  | getOne i => exact hres
  | stats => exact hres
  | health => exact hres
  | resetDemo cred =>
    rw [runOp, reset_demo_data]
    cases get_api_key cred with
    | error e => exact h
    | ok k => exact storeInv_resetTo s now h

theorem storeInv_runTrace (tr : List (Nat × Op)) :
    StoreInv (runTrace initStore tr) := by
  suffices hgen : ∀ s, StoreInv s → StoreInv (runTrace s tr) from
    hgen initStore storeInv_initStore
  induction tr with
  | nil => intro s h; exact h
  | cons p rest ih =>
    intro s h
    obtain ⟨now, op⟩ := p
    exact ih _ (storeInv_runOp now op s h)

/-! ### Small facts about the gate and the reset pre-check -/

theorem get_api_key_reject (cred : Option String) (hc : cred ≠ some API_KEY) :
    get_api_key cred = .error .unauthorized := by
  match cred with
  | none => rfl
  | some x =>
    simp only [get_api_key]
    rw [if_neg (fun hx => hc (by rw [hx]))]

theorem get_api_key_accept : get_api_key (some API_KEY) = .ok API_KEY := by
  simp [get_api_key]

theorem create_core_lastReset (now : Nat) (req : StudentCreate) (s : Store) :
    (create_student_core now req s).2.lastReset = s.lastReset := by
  rw [create_student_core]
  split <;> rfl

theorem update_core_lastReset (i : Nat) (u : StudentUpdate) (s : Store) :
    (update_student_core i u s).2.lastReset = s.lastReset := by
  rw [update_student_core]
  cases findRecord s i with
  | none => rfl
  | some p => obtain ⟨r, st⟩ := p; rfl

theorem set_active_core_lastReset (b : Bool) (i : Nat) (s : Store) :
    (set_active_core b i s).2.lastReset = s.lastReset := by
  rw [set_active_core]
  cases findRecord s i with
  | none => rfl
  | some p => obtain ⟨r, st⟩ := p; rfl

/-! ### Concrete scenario inputs -/

/-- A creation request with a fresh email. -/
def reqAna : StudentCreate :=
  { nombre := "Ana", apellido := "Ruiz", email := "ana@email.com",
    telefono := none, curso := "Python para Principiantes",
    nivel := "Principiante", activo := true }

/-- A second creation request with another fresh email. -/
def reqBeto : StudentCreate :=
  { nombre := "Beto", apellido := "Sosa", email := "beto@email.com",
    telefono := none, curso := "Data Science", nivel := "Avanzado",
    activo := true }

/-- The store after an authorized create of `reqAna` at time 0. -/
def storeWithAna : Store := (create_student (some API_KEY) 0 reqAna initStore).2

/-- An update request supplying only `nombre`. -/
def hackUpdate : StudentUpdate :=
  { nombre := some "Hacked", apellido := none, email := none, telefono := none,
    curso := none, nivel := none, activo := none }

/-- The store after an authorized `PUT /alumnos/1` with `hackUpdate` at
time 0: seed dict 1 is mutated in place. -/
def storeHacked : Store := (update_student (some API_KEY) 0 1 hackUpdate initStore).2

/-- The store after the reset window has elapsed and a read arrives at
time 40: `reset_data_if_needed` has fired. -/
def storeHackedReset : Store := (get_students 40 none none none storeHacked).2

/-- A record satisfying all given filters, read off the spec: absent
filter fields impose no constraint, string filters are case-insensitive
exact comparisons, all filters conjoined. -/
def matchesFilters (activo : Option Bool) (curso nivel : Option String)
    (st : Student) : Bool :=
  (match activo with
   | none => true
   | some b => st.activo == b) &&
  (match curso with
   | none => true
   | some c => strLower st.curso == strLower c) &&
  (match nivel with
   | none => true
   | some n => strLower st.nivel == strLower n)

/-! ### The claims -/

/-- C7: for every store state (hence every reachable one), the statistics
satisfy `alumnos_activos + alumnos_inactivos = total_alumnos`; the
`por_curso` and `por_nivel` counts each sum to the total, with pairwise
distinct keys listed in first-seen order among current records; and the
statistics endpoint leaves the store exactly as the reset pre-check left
it (the aggregation itself is pure). -/
theorem statistics_invariants (now : Nat) (s : Store) :
    (get_statistics_core s).alumnos_activos + (get_statistics_core s).alumnos_inactivos
      = (get_statistics_core s).total_alumnos ∧
    sumCounts (get_statistics_core s).por_curso = (get_statistics_core s).total_alumnos ∧
    sumCounts (get_statistics_core s).por_nivel = (get_statistics_core s).total_alumnos ∧
    keysOf (get_statistics_core s).por_curso = firstSeen (s.view.map Student.curso) ∧
    keysOf (get_statistics_core s).por_nivel = firstSeen (s.view.map Student.nivel) ∧
    (keysOf (get_statistics_core s).por_curso).Nodup ∧
    (keysOf (get_statistics_core s).por_nivel).Nodup ∧
    (get_statistics now s).2 = reset_data_if_needed now s := by
  refine ⟨?_, ?_, ?_, ?_, ?_, ?_, ?_, rfl⟩
  · have hle := List.length_filter_le (fun st => st.activo) s.view
    simp only [get_statistics_core]
    omega
  · simpa [get_statistics_core] using
      sumCounts_countsBy (fun st => st.curso) s.view
  · simpa [get_statistics_core] using
      sumCounts_countsBy (fun st => st.nivel) s.view
  · simpa [get_statistics_core] using
      keysOf_countsBy (fun st => st.curso) s.view
  · simpa [get_statistics_core] using
      keysOf_countsBy (fun st => st.nivel) s.view
  · have h := keysOf_countsBy (fun st => st.curso) s.view
    simp only [get_statistics_core]
    rw [h]
    exact nodup_firstSeen _
  · have h := keysOf_countsBy (fun st => st.nivel) s.view
    simp only [get_statistics_core]
    rw [h]
    exact nodup_firstSeen _

/-- C8: a mutating request is rejected with Unauthorized exactly when no
credential is presented or the credential differs from the configured
secret (`cred ≠ some API_KEY` covers both), and a rejected request leaves
the store untouched; the read endpoints take no credential at all in their
signatures and never answer Unauthorized. -/
theorem access_gate_spec (cred : Option String) (now : Nat) (s : Store)
    (req : StudentCreate) (student_id : Nat) (u : StudentUpdate) :
    (get_api_key cred = .error .unauthorized ↔ cred ≠ some API_KEY) ∧
    (cred ≠ some API_KEY →
      create_student cred now req s = (.error .unauthorized, s) ∧
      update_student cred now student_id u s = (.error .unauthorized, s) ∧
      delete_student cred now student_id s = (.error .unauthorized, s) ∧
      activate_student cred now student_id s = (.error .unauthorized, s) ∧
      deactivate_student cred now student_id s = (.error .unauthorized, s) ∧
      reset_demo_data cred now s = (.error .unauthorized, s)) ∧
    (get_student now student_id s).1 ≠ Except.error Err.unauthorized := by
  refine ⟨⟨?_, get_api_key_reject cred⟩, ?_, ?_⟩
  · intro herr hcred
    rw [hcred, get_api_key_accept] at herr
    cases herr
  · intro hc
    have he := get_api_key_reject cred hc
    exact ⟨by simp [create_student, he], by simp [update_student, he],
      by simp [delete_student, he], by simp [activate_student, he],
      by simp [deactivate_student, he], by simp [reset_demo_data, he]⟩
  · rw [get_student]
    dsimp only
    rw [get_student_core]
    cases findRecord (reset_data_if_needed now s) student_id with
    | none => simp
    | some p => simp

theorem access_gate_spec_witness :
    (get_api_key none = .error .unauthorized ↔ (none : Option String) ≠ some API_KEY) ∧
    create_student none 0 reqAna initStore = (.error .unauthorized, initStore) := by
  have h := access_gate_spec none 0 initStore reqAna 1 hackUpdate
  exact ⟨h.1, (h.2.1 (by decide)).1⟩

/-- C9: an empty-string `curso` or `nivel` filter behaves exactly like an
absent filter (Python truthiness: `if curso:` is false for `""`), so it
does not restrict the result to records with an empty course or level. -/
theorem empty_string_filter_like_none (now : Nat) (s : Store)
    (activo : Option Bool) (curso nivel : Option String) :
    get_students now activo (some "") nivel s
      = get_students now activo none nivel s ∧
    get_students now activo curso (some "") s
      = get_students now activo curso none s := by
  constructor
  · rfl
  · rfl

/-- C2 counterexample: starting from `storeWithAna` (one record created on
top of the seeds at time 0), the reset window has elapsed at time 40, yet
the next mutating request, presented with a wrong credential, is rejected
with the store completely untouched — in particular the time-based reset
that `reset_data_if_needed` would have performed (restoring
`dbRefs = seedRefs`) did not happen, because the FastAPI credential
dependency runs before the endpoint body. -/
theorem unauthorized_request_skips_reset_cex :
    storeWithAna.lastReset + RESET_WINDOW < 40 ∧
    create_student (some "wrong-key") 40 reqBeto storeWithAna
      = (.error .unauthorized, storeWithAna) ∧
    (reset_data_if_needed 40 storeWithAna).dbRefs = seedRefs ∧
    storeWithAna.dbRefs ≠ seedRefs := by
  exact ⟨by decide, rfl, by decide, by decide⟩

/-- C2 (amended): for mutating operations the Access Gate runs first, as a
FastAPI dependency: a request with a missing or wrong credential is
rejected with no store change at all — the reset check is not triggered —
while an authorized mutating request does run the reset check before the
store logic (when the window has elapsed, `last_reset` is advanced to
`now` whatever the operation then does); read operations run the reset
check first and then their pure logic. -/
theorem access_gate_runs_before_reset_check (cred : Option String) (now : Nat)
    (req : StudentCreate) (student_id : Nat) (u : StudentUpdate) (s : Store) :
    (cred ≠ some API_KEY →
      (create_student cred now req s).2 = s ∧
      (update_student cred now student_id u s).2 = s ∧
      (deactivate_student cred now student_id s).2 = s) ∧
    (s.lastReset + RESET_WINDOW < now →
      (create_student (some API_KEY) now req s).2.lastReset = now ∧
      (update_student (some API_KEY) now student_id u s).2.lastReset = now ∧
      (deactivate_student (some API_KEY) now student_id s).2.lastReset = now) ∧
    (get_students now none none none s).2 = reset_data_if_needed now s ∧
    (get_statistics now s).2 = reset_data_if_needed now s := by
  constructor
  · intro hc
    have he := get_api_key_reject cred hc
    exact ⟨by simp [create_student, he], by simp [update_student, he],
      by simp [deactivate_student, he]⟩
  refine ⟨?_, rfl, rfl⟩
  intro hw
  have hres : (reset_data_if_needed now s).lastReset = now := by
    rw [reset_data_if_needed, if_pos hw]
  refine ⟨?_, ?_, ?_⟩
  · simp only [create_student, get_api_key_accept]
    rw [create_core_lastReset, hres]
  · simp only [update_student, get_api_key_accept]
    rw [update_core_lastReset, hres]
  · simp only [deactivate_student, get_api_key_accept]
    rw [set_active_core_lastReset, hres]

theorem access_gate_runs_before_reset_check_witness :
    (create_student (some "bad") 0 reqAna storeWithAna).2 = storeWithAna ∧
    (create_student (some API_KEY) 40 reqBeto storeWithAna).2.lastReset = 40 :=
  ⟨((access_gate_runs_before_reset_check (some "bad") 0 reqAna 1 hackUpdate
      storeWithAna).1 (by decide)).1,
   ((access_gate_runs_before_reset_check (some API_KEY) 40 reqBeto 1 hackUpdate
      storeWithAna).2.1 (by decide)).1⟩

/-- C1 (code bug): `INITIAL_STUDENTS.copy()` is a shallow copy, so the
store and the seed list share the seed dicts.  After an authorized
`PUT /alumnos/1` renames Juan to "Hacked" at time 0, the window elapses
and the next operation (a read at time 40) fires the automatic reset: the
record list and `next_id` are restored, but the in-place update to seed
record 1 survives — the restored store shows "Hacked", not the original
seeded value "Juan", contradicting the spec's full-discard reset. -/
theorem reset_keeps_inplace_mutations :
    storeHacked.lastReset + RESET_WINDOW < 40 ∧
    storeHackedReset.dbRefs = seedRefs ∧
    storeHackedReset.nextId = 4 ∧
    storeHackedReset.view.map Student.nombre = ["Hacked", "María", "Carlos"] ∧
    initStore.view.map Student.nombre = ["Juan", "María", "Carlos"] := by
  exact ⟨by decide, by decide, by decide, by decide, by decide⟩

/-- C6 counterexample: on the seed store, the filter combination
`curso = some ""` returns all three records, although no record's course
equals `""` case-insensitively — the empty-string filter is dropped by the
truthiness check `if curso:` rather than applied as an exact match, so the
result is not "exactly the records satisfying all given filters". -/
theorem empty_course_filter_cex :
    filter_students none (some "") none initStore.view = initStore.view ∧
    initStore.view.filter (matchesFilters none (some "") none) = [] ∧
    initStore.view ≠ [] := by
  exact ⟨rfl, by decide, by decide⟩

/-- C6 (amended): for every filter combination whose course and level
filters, when present, are nonempty strings (an empty string is treated as
an absent filter), `GET /alumnos` returns exactly the records satisfying
all given filters — AND semantics, case-insensitive exact comparison for
course and level, absent fields unconstrained — in insertion order (the
result is a sublist of the store view), and an empty result is an ordinary
value, the handler leaving the store as the reset pre-check produced it. -/
theorem list_filter_and_semantics (now : Nat) (s : Store) (activo : Option Bool)
    (curso nivel : Option String) (hc : curso ≠ some "") (hn : nivel ≠ some "") :
    (get_students now activo curso nivel s).1
      = (reset_data_if_needed now s).view.filter (matchesFilters activo curso nivel) ∧
    ((get_students now activo curso nivel s).1).Sublist
      (reset_data_if_needed now s).view ∧
    (get_students now activo curso nivel s).2 = reset_data_if_needed now s := by
  have key : ∀ l : List Student, filter_students activo curso nivel l
      = l.filter (matchesFilters activo curso nivel) := by
    intro l
    have hcemp : ∀ c : String, curso = some c → c.isEmpty = false := by
      intro c hcc
      cases hemp : c.isEmpty
      · rfl
      · exact absurd (by rw [(String.isEmpty_iff c).mp hemp] at hcc; exact hcc) hc
    have hnemp : ∀ n : String, nivel = some n → n.isEmpty = false := by
      intro n hnn
      cases hemp : n.isEmpty
      · rfl
      · exact absurd (by rw [(String.isEmpty_iff n).mp hemp] at hnn; exact hnn) hn
    rcases activo with _ | b <;> rcases curso with _ | c <;> rcases nivel with _ | n
    · exact (List.filter_eq_self.mpr fun st _ => by simp [matchesFilters]).symm
    · simp only [filter_students, hnemp n rfl, Bool.false_eq_true,
        if_false]
      exact List.filter_congr fun st _ => by
        simp [matchesFilters, Bool.and_comm, Bool.and_assoc, Bool.and_left_comm]
    · simp only [filter_students, hcemp c rfl, Bool.false_eq_true, if_false]
      exact List.filter_congr fun st _ => by
        simp [matchesFilters, Bool.and_comm, Bool.and_assoc, Bool.and_left_comm]
    · simp only [filter_students, hcemp c rfl, hnemp n rfl,
        Bool.false_eq_true, if_false, List.filter_filter]
      exact List.filter_congr fun st _ => by
        simp [matchesFilters, Bool.and_comm, Bool.and_assoc, Bool.and_left_comm]
    · simp only [filter_students]
      exact List.filter_congr fun st _ => by
        simp [matchesFilters, Bool.and_comm, Bool.and_assoc, Bool.and_left_comm]
    · simp only [filter_students, hnemp n rfl, Bool.false_eq_true, if_false,
        List.filter_filter]
      exact List.filter_congr fun st _ => by
        simp [matchesFilters, Bool.and_comm, Bool.and_assoc, Bool.and_left_comm]
    · simp only [filter_students, hcemp c rfl, Bool.false_eq_true, if_false,
        List.filter_filter]
      exact List.filter_congr fun st _ => by
        simp [matchesFilters, Bool.and_comm, Bool.and_assoc, Bool.and_left_comm]
    · simp only [filter_students, hcemp c rfl, hnemp n rfl,
        Bool.false_eq_true, if_false, List.filter_filter]
      exact List.filter_congr fun st _ => by
        simp [matchesFilters, Bool.and_comm, Bool.and_assoc, Bool.and_left_comm]
  refine ⟨key _, ?_, rfl⟩
  have hfst : (get_students now activo curso nivel s).1
      = filter_students activo curso nivel (reset_data_if_needed now s).view := rfl
  rw [hfst, key]
  exact List.filter_sublist _

theorem list_filter_and_semantics_witness :
    (get_students 0 (some true) (some "PYTHON PARA PRINCIPIANTES") none initStore).1
      = (reset_data_if_needed 0 initStore).view.filter
          (matchesFilters (some true) (some "PYTHON PARA PRINCIPIANTES") none) :=
  (list_filter_and_semantics 0 initStore (some true)
    (some "PYTHON PARA PRINCIPIANTES") none (by decide) (by decide)).1

/-- A creation request whose email collides (case-sensitively) with seed
record 1. -/
def reqDupJuan : StudentCreate :=
  { nombre := "Otro", apellido := "Homónimo", email := "juan@email.com",
    telefono := none, curso := "Data Science", nivel := "Avanzado",
    activo := true }

/-- C3: when some stored record's email equals the request's email exactly
(case-sensitively), create fails with Conflict and the whole store — the
reference list, heap, counter — is unchanged; with a fresh email, create
returns the new record with `id = next_id` and `fecha_registro = now`,
appends it at the end of the store, and increments `next_id` by one. -/
theorem create_student_conflict_and_success (s : Store) (now : Nat)
    (req : StudentCreate) (hwf : ∀ r ∈ s.dbRefs, r < s.heap.length) :
    ((∃ st ∈ s.view, st.email = req.email) →
      create_student_core now req s = (.error .conflict, s)) ∧
    ((∀ st ∈ s.view, st.email ≠ req.email) →
      (create_student_core now req s).1 = .ok (newStudentOf s.nextId now req) ∧
      (newStudentOf s.nextId now req).id = s.nextId ∧
      (newStudentOf s.nextId now req).fecha_registro = now ∧
      (newStudentOf s.nextId now req).email = req.email ∧
      (create_student_core now req s).2.view
        = s.view ++ [newStudentOf s.nextId now req] ∧
      (create_student_core now req s).2.nextId = s.nextId + 1 ∧
      (create_student_core now req s).2.lastReset = s.lastReset) := by
  constructor
  · rintro ⟨st, hst, he⟩
    have hg : s.view.any (fun st => st.email == req.email) = true :=
      List.any_eq_true.mpr ⟨st, hst, by simp [he]⟩
    rw [create_student_core, if_pos hg]
  · intro hno
    have hg : ¬ (s.view.any (fun st => st.email == req.email) = true) := by
      rw [List.any_eq_true]
      rintro ⟨st, hst, he⟩
      exact hno st hst (by simpa using he)
    rw [create_student_core, if_neg hg]
    refine ⟨rfl, rfl, rfl, rfl, ?_, rfl, rfl⟩
    dsimp only
    rw [Store.view]
    dsimp only
    rw [List.filterMap_append,
      filterMap_getElem?_append s.heap _ s.dbRefs hwf]
    rw [Store.view]
    congr 1
    simp [List.filterMap_cons, List.getElem?_concat_length]

theorem create_student_conflict_and_success_witness :
    create_student_core 5 reqDupJuan initStore = (.error .conflict, initStore) ∧
    (create_student_core 5 reqAna initStore).1 = .ok (newStudentOf 4 5 reqAna) :=
  ⟨(create_student_conflict_and_success initStore 5 reqDupJuan (by decide)).1
      ⟨seedJuan, by decide, rfl⟩,
   ((create_student_conflict_and_success initStore 5 reqAna (by decide)).2
      (by decide)).1⟩

/-- C4: `update` on an existing id returns the record with exactly the
supplied fields applied: `id` and `fecha_registro` are always preserved
(the `StudentUpdate` model has no such fields, so they cannot be supplied;
extra request fields are ignored by Pydantic), each unset field keeps its
old value and each supplied field takes the supplied value; the rest of
the store — the other records, the insertion order, `next_id`,
`last_reset` — is untouched. -/
theorem update_student_frame (s : Store) (student_id : Nat) (u : StudentUpdate)
    (r : Nat) (st : Student)
    (hwf : ∀ q ∈ s.dbRefs, q < s.heap.length) (hnd : s.dbRefs.Nodup)
    (hfind : findRecord s student_id = some (r, st)) :
    update_student_core student_id u s
      = (.ok (applyUpdate st u), setHeap s r (applyUpdate st u)) ∧
    (applyUpdate st u).id = st.id ∧
    (applyUpdate st u).fecha_registro = st.fecha_registro ∧
    (u.nombre = none → (applyUpdate st u).nombre = st.nombre) ∧
    (∀ v, u.nombre = some v → (applyUpdate st u).nombre = v) ∧
    (u.apellido = none → (applyUpdate st u).apellido = st.apellido) ∧
    (∀ v, u.apellido = some v → (applyUpdate st u).apellido = v) ∧
    (u.email = none → (applyUpdate st u).email = st.email) ∧
    (∀ v, u.email = some v → (applyUpdate st u).email = v) ∧
    (u.telefono = none → (applyUpdate st u).telefono = st.telefono) ∧
    (∀ v, u.telefono = some v → (applyUpdate st u).telefono = v) ∧
    (u.curso = none → (applyUpdate st u).curso = st.curso) ∧
    (∀ v, u.curso = some v → (applyUpdate st u).curso = v) ∧
    (u.nivel = none → (applyUpdate st u).nivel = st.nivel) ∧
    (∀ v, u.nivel = some v → (applyUpdate st u).nivel = v) ∧
    (u.activo = none → (applyUpdate st u).activo = st.activo) ∧
    (∀ v, u.activo = some v → (applyUpdate st u).activo = v) ∧
    (update_student_core student_id u s).2.view
      = replaceFirstById s.view student_id (applyUpdate st u) ∧
    (update_student_core student_id u s).2.dbRefs = s.dbRefs ∧
    (update_student_core student_id u s).2.nextId = s.nextId ∧
    (update_student_core student_id u s).2.lastReset = s.lastReset := by
  have heq : update_student_core student_id u s
      = (.ok (applyUpdate st u), setHeap s r (applyUpdate st u)) := by
    rw [update_student_core, hfind]
  refine ⟨heq, rfl, rfl,
    fun h => by simp [applyUpdate, h], fun v h => by simp [applyUpdate, h],
    fun h => by simp [applyUpdate, h], fun v h => by simp [applyUpdate, h],
    fun h => by simp [applyUpdate, h], fun v h => by simp [applyUpdate, h],
    fun h => by simp [applyUpdate, h], fun v h => by simp [applyUpdate, h],
    fun h => by simp [applyUpdate, h], fun v h => by simp [applyUpdate, h],
    fun h => by simp [applyUpdate, h], fun v h => by simp [applyUpdate, h],
    fun h => by simp [applyUpdate, h], fun v h => by simp [applyUpdate, h],
    ?_, by rw [heq]; rfl, by rw [heq]; rfl, by rw [heq]; rfl⟩
  rw [heq]
  exact view_setHeap s student_id r st (applyUpdate st u) hwf hnd hfind

theorem update_student_frame_witness :
    update_student_core 1 hackUpdate initStore
      = (.ok (applyUpdate seedJuan hackUpdate),
         setHeap initStore 0 (applyUpdate seedJuan hackUpdate)) ∧
    (applyUpdate seedJuan hackUpdate).id = seedJuan.id ∧
    (applyUpdate seedJuan hackUpdate).fecha_registro = seedJuan.fecha_registro ∧
    (applyUpdate seedJuan hackUpdate).email = seedJuan.email := by
  obtain ⟨h1, h2, h3, _, _, _, _, hem, _⟩ :=
    update_student_frame initStore 1 hackUpdate 0 seedJuan
      (by decide) (by decide) (by decide)
  exact ⟨h1, h2, h3, hem rfl⟩

/-- C10: activate and deactivate (`set_active_core b`) change only the
`activo` flag of the first record with the given id: every other field of
that record, every other record, the insertion order (`dbRefs`), the
`next_id` counter and the `last_reset` timestamp are unchanged. -/
theorem set_active_frame (s : Store) (student_id : Nat) (b : Bool) (r : Nat)
    (st : Student)
    (hwf : ∀ q ∈ s.dbRefs, q < s.heap.length) (hnd : s.dbRefs.Nodup)
    (hfind : findRecord s student_id = some (r, st)) :
    set_active_core b student_id s
      = (.ok (), setHeap s r { st with activo := b }) ∧
    ({ st with activo := b } : Student).activo = b ∧
    ({ st with activo := b } : Student).id = st.id ∧
    ({ st with activo := b } : Student).nombre = st.nombre ∧
    ({ st with activo := b } : Student).apellido = st.apellido ∧
    ({ st with activo := b } : Student).email = st.email ∧
    ({ st with activo := b } : Student).telefono = st.telefono ∧
    ({ st with activo := b } : Student).curso = st.curso ∧
    ({ st with activo := b } : Student).nivel = st.nivel ∧
    ({ st with activo := b } : Student).fecha_registro = st.fecha_registro ∧
    (set_active_core b student_id s).2.view
      = replaceFirstById s.view student_id { st with activo := b } ∧
    (set_active_core b student_id s).2.dbRefs = s.dbRefs ∧
    (set_active_core b student_id s).2.nextId = s.nextId ∧
    (set_active_core b student_id s).2.lastReset = s.lastReset := by
  have heq : set_active_core b student_id s
      = (.ok (), setHeap s r { st with activo := b }) := by
    rw [set_active_core, hfind]
  refine ⟨heq, rfl, rfl, rfl, rfl, rfl, rfl, rfl, rfl, rfl, ?_,
    by rw [heq]; rfl, by rw [heq]; rfl, by rw [heq]; rfl⟩
  rw [heq]
  exact view_setHeap s student_id r st _ hwf hnd hfind

theorem set_active_frame_witness :
    set_active_core false 2 initStore
      = (.ok (), setHeap initStore 1 { seedMaria with activo := false }) ∧
    (set_active_core false 2 initStore).2.view
      = replaceFirstById initStore.view 2 { seedMaria with activo := false } := by
  obtain ⟨h1, _, _, _, _, _, _, _, _, _, hview, _, _, _⟩ :=
    set_active_frame initStore 2 false 1 seedMaria
      (by decide) (by decide) (by decide)
  exact ⟨h1, hview⟩

/-- C5 counterexample: id 4 is assigned twice.  `reqAna`, created at time
0, receives id 4; after the window elapses, the authorized create of
`reqBeto` at time 40 first fires the automatic reset (`next_id` back to 4)
and then assigns id 4 again — so across the store's lifetime ids are
neither assigned monotonically nor never reused. -/
theorem id_reused_after_reset_cex :
    (create_student (some API_KEY) 0 reqAna initStore).1.map Student.id
      = Except.ok 4 ∧
    (create_student (some API_KEY) 40 reqBeto storeWithAna).1.map Student.id
      = Except.ok 4 ∧
    storeWithAna = (create_student (some API_KEY) 0 reqAna initStore).2 := by
  exact ⟨rfl, rfl, rfl⟩

/-- C5 (amended): at every reachable store state the record ids are
pairwise distinct, and each successful create assigns `id = next_id` and
increments `next_id` — so ids increase and are never reused between two
resets; but a reset (automatic or explicit) restores `next_id = 4`, so ids
≥ 4 can be assigned again afterwards. -/
theorem ids_unique_and_create_assigns_next (tr : List (Nat × Op)) (s : Store)
    (now : Nat) (req : StudentCreate) (st' : Student)
    (hok : (create_student_core now req s).1 = .ok st') :
    ((runTrace initStore tr).view.map Student.id).Nodup ∧
    st'.id = s.nextId ∧
    (create_student_core now req s).2.nextId = s.nextId + 1 := by
  refine ⟨(storeInv_runTrace tr).idsNodup, ?_, ?_⟩
  · rw [create_student_core] at hok
    by_cases hg : s.view.any (fun st => st.email == req.email) = true
    · rw [if_pos hg] at hok
      cases hok
    · rw [if_neg hg] at hok
      cases hok
      rfl
  · by_cases hg : s.view.any (fun st => st.email == req.email) = true
    · rw [create_student_core, if_pos hg] at hok
      cases hok
    · rw [create_student_core, if_neg hg]

theorem ids_unique_and_create_assigns_next_witness :
    ((runTrace initStore []).view.map Student.id).Nodup ∧
    (newStudentOf 4 5 reqAna).id = initStore.nextId ∧
    (create_student_core 5 reqAna initStore).2.nextId = initStore.nextId + 1 := by
  have h := ids_unique_and_create_assigns_next [] initStore 5 reqAna
    (newStudentOf 4 5 reqAna) rfl
  exact ⟨h.1, h.2.1, h.2.2⟩

end ApiAlumnos
